import Mathlib

/-!
Verification development for the CSV-to-JSON converter (`csvToJson` in
`src/App.tsx`, duplicated verbatim in the second view file).

Strings are modelled as `List Char`.  JavaScript `String.prototype.trim`
is modelled over the ASCII whitespace characters (space, tab, LF, CR,
vertical tab, form feed); `String.prototype.split` with a one-character
separator is `splitCh`; `Number(...)` is `jsNumber`, a faithful
implementation of the ECMAScript `StringNumericLiteral` grammar whose
finite values are kept exactly as `num / 10 ^ exp10` (a JavaScript engine
would round to the nearest double; for the decimal literals exercised
here the shortest round-trip rendering of that double coincides with the
exact decimal rendering used below).  `JSON.stringify(-, null, 2)` is
modelled by `renderTop`, specialised to the depth-two shape (array of
flat objects of scalars) that `csvToJson` produces; its property
enumeration follows `OrdinaryOwnPropertyKeys` (array-index keys first in
ascending numeric order, then creation order), modelled by
`jsOwnKeysOrder` over the creation-ordered property table built by
`objInsert`.
-/

/-- Whitespace predicate used by the model of JavaScript `trim` (ASCII
subset of the ECMAScript WhiteSpace / LineTerminator productions). -/
def jsIsWs (c : Char) : Bool :=
  c = ' ' || c = '\t' || c = '\n' || c = '\r' || c = '\x0b' || c = '\x0c'

/-- Drop trailing whitespace, modelling the right half of JS `trim`. -/
def trimRight (l : List Char) : List Char :=
  (l.reverse.dropWhile jsIsWs).reverse

/-- Model of JavaScript `String.prototype.trim`. -/
def trimL (l : List Char) : List Char :=
  trimRight (l.dropWhile jsIsWs)

/-- Model of JavaScript `String.prototype.split` with a one-character
separator: always returns at least one (possibly empty) chunk. -/
def splitCh (sep : Char) : List Char → List (List Char)
  | [] => [[]]
  | c :: rest =>
    match splitCh sep rest with
    | [] => [[]]
    | h :: t => if c = sep then [] :: h :: t else (c :: h) :: t

/-- Decimal digit test. -/
def isDigit (c : Char) : Bool := '0' ≤ c && c ≤ '9'

/-- Hexadecimal digit test. -/
def isHexDigit (c : Char) : Bool :=
  isDigit c || ('a' ≤ c && c ≤ 'f') || ('A' ≤ c && c ≤ 'F')

/-- Octal digit test. -/
def isOctDigit (c : Char) : Bool := '0' ≤ c && c ≤ '7'

/-- Binary digit test. -/
def isBinDigit (c : Char) : Bool := c = '0' || c = '1'

/-- Numeric value of a (hex) digit character. -/
def digitVal (c : Char) : Nat :=
  if 'a' ≤ c && c ≤ 'f' then c.toNat - 'a'.toNat + 10
  else if 'A' ≤ c && c ≤ 'F' then c.toNat - 'A'.toNat + 10
  else c.toNat - '0'.toNat

/-- Value of a digit string in base `b`. -/
def natOfDigits (b : Nat) (l : List Char) : Nat :=
  l.foldl (fun a c => b * a + digitVal c) 0

/-- Result of JavaScript `Number(...)` on a string: NaN, a signed
infinity, or a finite value represented exactly as `num / 10 ^ exp10`. -/
inductive JsNum
  | nan
  | posInf
  | negInf
  | fin (num : Int) (exp10 : Nat)
deriving DecidableEq, Repr

/-- Test corresponding to JavaScript `isNaN` on a `Number(...)` result. -/
def jsIsNaN : JsNum → Bool
  | .nan => true
  | _ => false

/-- Strip an optional leading sign, returning the sign (as `1` or `-1`)
and the remainder. -/
def splitSign : List Char → Int × List Char
  | '+' :: r => (1, r)
  | '-' :: r => (-1, r)
  | r => (1, r)

/-- Combine a mantissa (integer digits value `m` with `f` fractional
digits) and a decimal exponent `e` into an exact `JsNum.fin`. -/
def mkFin (sign : Int) (m : Nat) (f : Nat) (e : Int) : JsNum :=
  let t : Int := e - (f : Int)
  if 0 ≤ t then .fin (sign * (m * 10 ^ t.toNat : Nat)) 0
  else .fin (sign * (m : Int)) (-t).toNat

/-- Parse the exponent part (after the letter `e`/`E`) of a decimal
literal and finish the number, per the `ExponentPart` production. -/
def parseExp (sign : Int) (m : Nat) (f : Nat) (r : List Char) : JsNum :=
  let se := splitSign r
  if se.2 ≠ [] && se.2.all isDigit then
    mkFin sign m f (se.1 * (natOfDigits 10 se.2 : Nat))
  else .nan

/-- Parse an unsigned decimal literal (`StrUnsignedDecimalLiteral`
without the `Infinity` alternative); the whole input must be consumed. -/
def parseDecCore (sign : Int) (t : List Char) : JsNum :=
  let intDigits := t.takeWhile isDigit
  let rest := t.dropWhile isDigit
  match rest with
  | [] =>
    if intDigits = [] then .nan else mkFin sign (natOfDigits 10 intDigits) 0 0
  | '.' :: r2 =>
    let fracDigits := r2.takeWhile isDigit
    let r3 := r2.dropWhile isDigit
    if intDigits = [] && fracDigits = [] then .nan
    else
      let m := natOfDigits 10 (intDigits ++ fracDigits)
      match r3 with
      | [] => mkFin sign m fracDigits.length 0
      | e :: r4 =>
        if e = 'e' || e = 'E' then parseExp sign m fracDigits.length r4 else .nan
  | e :: r2 =>
    if (e = 'e' || e = 'E') && intDigits ≠ [] then
      parseExp sign (natOfDigits 10 intDigits) 0 r2
    else .nan

/-- Parse a radix-prefixed literal body (`0x` / `0o` / `0b` already
stripped). -/
def parseRadix (b : Nat) (isD : Char → Bool) (ds : List Char) : JsNum :=
  if ds ≠ [] && ds.all isD then .fin (natOfDigits b ds : Nat) 0 else .nan

/-- Model of JavaScript `Number(string)` (the `StringNumericLiteral`
grammar): the empty / all-whitespace string is `0`, `0x`/`0o`/`0b`
prefixes select a radix, otherwise an optionally signed `Infinity` or
decimal literal; anything else is NaN. -/
def jsNumber (s : List Char) : JsNum :=
  let t := trimL s
  if t = [] then .fin 0 0
  else if t.take 2 = ['0', 'x'] || t.take 2 = ['0', 'X'] then
    parseRadix 16 isHexDigit (t.drop 2)
  else if t.take 2 = ['0', 'o'] || t.take 2 = ['0', 'O'] then
    parseRadix 8 isOctDigit (t.drop 2)
  else if t.take 2 = ['0', 'b'] || t.take 2 = ['0', 'B'] then
    parseRadix 2 isBinDigit (t.drop 2)
  else
    let su := splitSign t
    if su.2 = "Infinity".data then
      if su.1 = 1 then .posInf else .negInf
    else parseDecCore su.1 su.2

/-- JavaScript value stored in an output record: the result of the
per-cell coercion in `csvToJson`. -/
inductive JsVal
  | vnull
  | vbool (b : Bool)
  | vnum (n : JsNum)
  | vstr (s : List Char)
deriving DecidableEq, Repr

/-- Lower-casing used by the model of `String.prototype.toLowerCase`
(ASCII; the cells compared against `"true"`/`"false"`/`"null"` only need
ASCII case folding). -/
def lowerL (l : List Char) : List Char := l.map Char.toLower

/-- Per-cell type coercion from the body of the row loop of `csvToJson`:
numeric check (`!isNaN(Number(value)) && value !== ""`), then boolean,
then null/empty, else the string itself. -/
def coerceCell (value : List Char) : JsVal :=
  if !jsIsNaN (jsNumber value) && value ≠ [] then .vnum (jsNumber value)
  else if lowerL value = "true".data || lowerL value = "false".data then
    .vbool (lowerL value = "true".data)
  else if lowerL value = "null".data || value = [] then .vnull
  else .vstr value

/-- An output record: a JavaScript object modelled as an ordered
association list (key insertion order is JS property order). -/
abbrev JsObj := List (List Char × JsVal)

/-- Model of the JavaScript assignment `obj[k] = v` on the property
table: an existing key is updated in place (keeping its creation
position), a new key is appended.  This is the table's creation order
only; the enumeration order that `JSON.stringify` follows is obtained
from it by `jsOwnKeysOrder`, which moves array-index keys to the front
in ascending numeric order. -/
def objInsert : JsObj → List Char → JsVal → JsObj
  | [], k, v => [(k, v)]
  | (k', v') :: rest, k, v =>
    if k' = k then (k', v) :: rest else (k', v') :: objInsert rest k v

/-- Fold a list of key/value pairs into an object by repeated
`objInsert`, mirroring the `headers.forEach` loop. -/
def insertAll (o : JsObj) (ps : JsObj) : JsObj :=
  ps.foldl (fun acc p => objInsert acc p.1 p.2) o

/-- Build one output record from the (trimmed) header names and the
(trimmed) cell values of one data row, coercing each cell. -/
def buildObj (headers : List (List Char)) (values : List (List Char)) : JsObj :=
  insertAll [] ((headers.zip values).map (fun p => (p.1, coerceCell p.2)))

/-- Structured form of the errors thrown by `csvToJson`. -/
inductive ConvErr
  | emptyInput
  | insufficientRows
  | columnMismatch (row : Nat) (observed : Nat) (expected : Nat)
deriving DecidableEq, Repr

/-- Exact `throw new Error(...)` message of each error, as in the
source. -/
def errMessage : ConvErr → List Char
  | .emptyInput => "CSV input is empty".data
  | .insufficientRows =>
    "CSV must have at least a header row and one data row".data
  | .columnMismatch r o e =>
    "Row ".data ++ (toString r).data ++ " has ".data ++ (toString o).data ++
      " columns, but header has ".data ++ (toString e).data ++ " columns".data

/-- Row-processing loop of `csvToJson` (`for (let i = 1; ...)`): split
each data line on commas, trim the fields, check the count against the
header, and build the record; the index `i` starts at `1` and a mismatch
at index `i` reports row `i + 1`. -/
def processRows (headers : List (List Char)) :
    List (List Char) → Nat → Except ConvErr (List JsObj)
  | [], _ => .ok []
  | line :: rest, i =>
    let values := (splitCh ',' line).map trimL
    if values.length ≠ headers.length then
      .error (.columnMismatch (i + 1) values.length headers.length)
    else
      match processRows headers rest (i + 1) with
      | .error e => .error e
      | .ok objs => .ok (buildObj headers values :: objs)

/-- Hexadecimal digit character (lower case), for `\u00XX` escapes. -/
def hexDigitChar (n : Nat) : Char :=
  if n < 10 then Char.ofNat ('0'.toNat + n) else Char.ofNat ('a'.toNat + n - 10)

/-- JSON escaping of one character, per the `QuoteJSONString` algorithm
used by `JSON.stringify`. -/
def escapeChar (c : Char) : List Char :=
  if c = '"' then ['\\', '"']
  else if c = '\\' then ['\\', '\\']
  else if c = '\x08' then ['\\', 'b']
  else if c = '\x0c' then ['\\', 'f']
  else if c = '\n' then ['\\', 'n']
  else if c = '\r' then ['\\', 'r']
  else if c = '\t' then ['\\', 't']
  else if c.toNat < 0x20 then
    ['\\', 'u', '0', '0', hexDigitChar (c.toNat / 16), hexDigitChar (c.toNat % 16)]
  else [c]

/-- JSON rendering of a string: quoted, with standard escaping. -/
def renderStr (s : List Char) : List Char :=
  '"' :: (s.map escapeChar).flatten ++ ['"']

/-- Remove factors of ten shared between a scaled integer and its
decimal exponent, so that `num / 10 ^ exp10` is rendered with no
trailing fractional zeros (as JavaScript number-to-string does). -/
def stripZeros : Int → Nat → Int × Nat
  | n, 0 => (n, 0)
  | n, e + 1 => if n % 10 = 0 then stripZeros (n / 10) e else (n, e + 1)

/-- Decimal rendering of a finite value `n / 10 ^ e`, matching the
JavaScript number-to-string output on the non-exponential range (JS
switches to exponent notation only beyond `1e21` / below `1e-7`, which
no claim exercises). -/
def renderFin (n : Int) (e : Nat) : List Char :=
  let p := stripZeros n e
  if p.2 = 0 then (toString p.1).data
  else
    let ds := (toString p.1.natAbs).data
    let ds' := if ds.length ≤ p.2 then
        List.replicate (p.2 + 1 - ds.length) '0' ++ ds
      else ds
    (if p.1 < 0 then ['-'] else []) ++
      ds'.take (ds'.length - p.2) ++ '.' :: ds'.drop (ds'.length - p.2)

/-- JSON rendering of one stored value, as `JSON.stringify` renders it:
non-finite numbers become `null`. -/
def renderVal : JsVal → List Char
  | .vnull => "null".data
  | .vbool b => if b then "true".data else "false".data
  | .vnum (.fin n e) => renderFin n e
  | .vnum _ => "null".data
  | .vstr s => renderStr s

/-- Interpose a separator between list chunks and concatenate. -/
def joinSep (sep : List Char) : List (List Char) → List Char
  | [] => []
  | [x] => x
  | x :: y :: t => x ++ sep ++ joinSep sep (y :: t)

/-- Array-index test per ECMAScript: a canonical numeric string (digits
only, no leading zero except `"0"` itself) whose value is below
`2^32 - 1`.  `[[OwnPropertyKeys]]` — and hence `JSON.stringify` —
enumerates such keys first, in ascending numeric order, before the other
string keys in property-creation order. -/
def isArrayIndex (s : List Char) : Bool :=
  s ≠ [] && s.all isDigit && (s = ['0'] || s.headD '0' ≠ '0') &&
    natOfDigits 10 s < 4294967295

/-- Insert one property into a list of array-index properties sorted by
ascending numeric key value. -/
def insertIdx (p : List Char × JsVal) : JsObj → JsObj
  | [] => [p]
  | q :: t =>
    if natOfDigits 10 p.1 < natOfDigits 10 q.1 then p :: q :: t
    else q :: insertIdx p t

/-- Sort array-index properties by ascending numeric key value. -/
def sortIdx (l : JsObj) : JsObj := l.foldr insertIdx []

/-- Enumeration order of an object's properties per ECMAScript
`OrdinaryOwnPropertyKeys`, as followed by `JSON.stringify`: array-index
keys first in ascending numeric order, then the remaining keys in
property-creation order. -/
def jsOwnKeysOrder (o : JsObj) : JsObj :=
  sortIdx (o.filter (fun p => isArrayIndex p.1)) ++
    o.filter (fun p => !isArrayIndex p.1)

/-- Key enumeration order of a record as the program's `JSON.stringify`
exhibits it. -/
def jsKeys (o : JsObj) : List (List Char) := (jsOwnKeysOrder o).map Prod.fst

/-- Key-level counterpart of `insertIdx`. -/
def insertKeyIdx (k : List Char) : List (List Char) → List (List Char)
  | [] => [k]
  | q :: t =>
    if natOfDigits 10 k < natOfDigits 10 q then k :: q :: t
    else q :: insertKeyIdx k t

/-- Key-level counterpart of `sortIdx`. -/
def sortKeyIdx (l : List (List Char)) : List (List Char) :=
  l.foldr insertKeyIdx []

/-- Key-level counterpart of `jsOwnKeysOrder`: the JS enumeration order
of a duplicate-free key sequence. -/
def jsOrderKeys (ks : List (List Char)) : List (List Char) :=
  sortKeyIdx (ks.filter isArrayIndex) ++ ks.filter (fun k => !isArrayIndex k)

/-- Rendering of one record with `JSON.stringify(-, null, 2)` at nesting
depth one: inner lines indented four spaces, closing brace two, the
properties enumerated in `jsOwnKeysOrder` (array-index keys first,
ascending) exactly as `JSON.stringify` enumerates them. -/
def renderObj (o : JsObj) : List Char :=
  match o with
  | [] => "\x7b\x7d".data
  | _ =>
    "\x7b\n".data ++
      joinSep ",\n".data
        ((jsOwnKeysOrder o).map (fun kv =>
          "    ".data ++ renderStr kv.1 ++ ": ".data ++ renderVal kv.2)) ++
      "\n  \x7d".data

/-- Rendering of the whole output array with two-space indentation, as
`JSON.stringify(jsonArray, null, 2)` produces for an array of flat
objects. -/
def renderTop (objs : List JsObj) : List Char :=
  match objs with
  | [] => "[]".data
  | _ =>
    "[\n".data ++
      joinSep ",\n".data (objs.map (fun o => "  ".data ++ renderObj o)) ++
      "\n]".data

/-- The CSV-to-JSON converter of `src/App.tsx`, over character lists:
trim the input (empty input is an error), split into lines on `'\n'`
(fewer than two lines is an error), take the comma-split trimmed first
line as the header, process the data rows, and serialize. -/
def csvToJsonL (csv : List Char) : Except ConvErr (List Char) :=
  if trimL csv = [] then .error .emptyInput
  else if (splitCh '\n' (trimL csv)).length < 2 then .error .insufficientRows
  else
    (processRows
        ((splitCh ',' ((splitCh '\n' (trimL csv)).headD [])).map trimL)
        (splitCh '\n' (trimL csv)).tail 1).map
      renderTop

/-- String-level entry point, pairing each structured error with the
exact message thrown by the source. -/
def csvToJson (csv : String) : Except String String :=
  match csvToJsonL csv.data with
  | .error e => .error ⟨errMessage e⟩
  | .ok out => .ok ⟨out⟩

/-- Cell coercion as the specification words it: a non-empty cell that
parses as a number becomes that number; else case-insensitive
`"true"`/`"false"` becomes the corresponding boolean; else
case-insensitive `"null"` or the empty cell becomes null; else the cell
stays the original trimmed string.  Stated separately from `coerceCell`
(which transcribes the source's `if`/`else if` chain) so that the two
can be compared. -/
def specCoerce (cell : List Char) : JsVal :=
  if cell ≠ [] ∧ jsIsNaN (jsNumber cell) = false then .vnum (jsNumber cell)
  else if lowerL cell = "true".data then .vbool true
  else if lowerL cell = "false".data then .vbool false
  else if lowerL cell = "null".data ∨ cell = [] then .vnull
  else .vstr cell

/-- Keys of a record in property-creation order (the backing table's
order, before the array-index-first reordering that enumeration
applies); the enumeration order the program prints is `jsKeys`. -/
def keysOf (o : JsObj) : List (List Char) := o.map Prod.fst

/-- First-occurrence deduplication: the key order a JS object ends up
with after assigning a sequence of (possibly repeated) keys. -/
def firstDedup {α : Type} [DecidableEq α] : List α → List α
  | [] => []
  | x :: xs => x :: (firstDedup xs).filter (fun a => a ≠ x)

/-- Lookup of a key in a record, scanning in property order (the JS
property read `obj[k]`). -/
def lookupObj (k : List Char) : JsObj → Option JsVal
  | [] => none
  | p :: rest => if p.1 = k then some p.2 else lookupObj k rest

/-- Value paired with the last (rightmost) occurrence of a key in a
plain pair sequence: later pairs take precedence. -/
def lastAssoc (k : List Char) : JsObj → Option JsVal
  | [] => none
  | p :: rest =>
    match lastAssoc k rest with
    | some w => some w
    | none => if p.1 = k then some p.2 else none

/-- Left-biased choice on options. -/
def optOr (a b : Option JsVal) : Option JsVal :=
  match a with
  | some v => some v
  | none => b

/-- Rewrite every line feed of an LF-only text into a CR LF pair. -/
def toCRLF : List Char → List Char
  | [] => []
  | c :: rest =>
    if c = '\n' then '\r' :: '\n' :: toCRLF rest else c :: toCRLF rest

/-- Append a carriage return to every chunk except the last: the effect
of CRLF line endings on the newline-split chunks. -/
def addCR : List (List Char) → List (List Char)
  | [] => []
  | [x] => [x]
  | x :: y :: t => (x ++ ['\r']) :: addCR (y :: t)

/-- Append a character to the last chunk only: the effect on a
comma-split of appending a non-comma character to the line. -/
def appLast (c : Char) : List (List Char) → List (List Char)
  | [] => []
  | [x] => [x ++ [c]]
  | x :: y :: t => x :: appLast c (y :: t)

lemma splitCh_ne_nil (sep : Char) (l : List Char) : splitCh sep l ≠ [] := by
  cases l with
  | nil => simp [splitCh]
  | cons c rest =>
    rw [splitCh]
    rcases splitCh sep rest with _ | ⟨h, t⟩
    · simp
    · dsimp only
      split <;> simp

lemma processRows_ok_of_matches (hs : List (List Char)) (rows : List (List Char))
    (h : ∀ r ∈ rows, (splitCh ',' r).length = hs.length) :
    ∀ i, processRows hs rows i =
      .ok (rows.map (fun r => buildObj hs ((splitCh ',' r).map trimL))) := by
  induction rows with
  | nil => intro i; rfl
  | cons r rest ih =>
    intro i
    have hr : (splitCh ',' r).length = hs.length := h r (by simp)
    have hrest := fun x hx => h x (List.mem_cons_of_mem r hx)
    simp only [processRows, List.length_map, hr, ne_eq, not_true_eq_false,
      if_false, ih hrest (i + 1), List.map_cons]

lemma processRows_err_shape (hs : List (List Char)) (rows : List (List Char)) :
    ∀ i e, processRows hs rows i = .error e →
      ∃ r o, e = .columnMismatch r o hs.length := by
  induction rows with
  | nil => intro i e h; simp [processRows] at h
  | cons r rest ih =>
    intro i e h
    simp only [processRows, List.length_map] at h
    by_cases hr : (splitCh ',' r).length = hs.length
    · simp only [hr, ne_eq, not_true_eq_false, if_false] at h
      cases hrec : processRows hs rest (i + 1) with
      | error e2 =>
        rw [hrec] at h
        injection h with h2
        exact h2 ▸ ih (i + 1) e2 hrec
      | ok objs => rw [hrec] at h; cases h
    · simp only [ne_eq, hr, not_false_eq_true, if_true] at h
      injection h with h2
      exact ⟨i + 1, (splitCh ',' r).length, h2.symm⟩

lemma processRows_err_of_mismatch (hs : List (List Char))
    (rows : List (List Char))
    (h : ∃ r ∈ rows, (splitCh ',' r).length ≠ hs.length) :
    ∀ i, ∃ ro ob, processRows hs rows i =
      .error (.columnMismatch ro ob hs.length) := by
  induction rows with
  | nil => simp at h
  | cons r rest ih =>
    intro i
    by_cases hr : (splitCh ',' r).length = hs.length
    · have hrest : ∃ x ∈ rest, (splitCh ',' x).length ≠ hs.length := by
        rcases h with ⟨x, hx, hxe⟩
        rcases List.mem_cons.mp hx with h1 | h2
        · exact absurd (h1 ▸ hr) hxe
        · exact ⟨x, h2, hxe⟩
      rcases ih hrest (i + 1) with ⟨ro, ob, hre⟩
      refine ⟨ro, ob, ?_⟩
      simp only [processRows, List.length_map, hr, ne_eq, not_true_eq_false,
        if_false, hre]
    · refine ⟨i + 1, (splitCh ',' r).length, ?_⟩
      simp only [processRows, List.length_map, ne_eq, hr, not_false_eq_true,
        if_true]

lemma mem_firstDedup {α : Type} [DecidableEq α] (l : List α) (a : α) :
    a ∈ firstDedup l ↔ a ∈ l := by
  induction l with
  | nil => simp [firstDedup]
  | cons x xs ih =>
    by_cases hax : a = x <;> simp [firstDedup, List.mem_filter, hax, ih]

lemma firstDedup_append_singleton {α : Type} [DecidableEq α] (l : List α)
    (k : α) :
    firstDedup (l ++ [k]) =
      if k ∈ l then firstDedup l else firstDedup l ++ [k] := by
  induction l with
  | nil => simp [firstDedup]
  | cons a l ih =>
    by_cases hk : k ∈ l
    · simp [firstDedup, ih, hk, List.mem_cons]
    · by_cases hka : k = a
      · subst hka
        simp [firstDedup, ih, hk, List.filter_append]
      · simp [firstDedup, ih, hk, hka, List.filter_append, Ne.symm hka]

lemma firstDedup_eq_self {α : Type} [DecidableEq α] (l : List α)
    (h : l.Nodup) : firstDedup l = l := by
  induction l with
  | nil => rfl
  | cons x xs ih =>
    rcases List.nodup_cons.mp h with ⟨hx, hxs⟩
    rw [firstDedup, ih hxs, List.filter_eq_self.mpr]
    intro a ha
    simp only [ne_eq, decide_eq_true_eq]
    intro he
    exact hx (he ▸ ha)

lemma keysOf_objInsert (o : JsObj) (k : List Char) (v : JsVal) :
    keysOf (objInsert o k v) =
      if k ∈ keysOf o then keysOf o else keysOf o ++ [k] := by
  induction o with
  | nil => simp [objInsert, keysOf]
  | cons p rest ih =>
    obtain ⟨pk, pv⟩ := p
    by_cases hpk : pk = k
    · subst hpk
      rw [objInsert, if_pos rfl,
        if_pos (show pk ∈ keysOf ((pk, pv) :: rest) from List.mem_cons_self pk _)]
      rfl
    · rw [objInsert, if_neg hpk]
      have hcons : keysOf ((pk, pv) :: objInsert rest k v) =
          pk :: keysOf (objInsert rest k v) := rfl
      rw [hcons, ih]
      by_cases hk : k ∈ keysOf rest
      · rw [if_pos hk,
          if_pos (show k ∈ keysOf ((pk, pv) :: rest) from
            List.mem_cons_of_mem pk hk)]
        rfl
      · rw [if_neg hk,
          if_neg (show ¬ k ∈ keysOf ((pk, pv) :: rest) from fun hc =>
            (List.mem_cons.mp hc).elim (fun h => hpk h.symm) hk)]
        rfl

lemma insertAll_append (o : JsObj) (ps qs : JsObj) :
    insertAll o (ps ++ qs) = insertAll (insertAll o ps) qs :=
  List.foldl_append _ _ _ _

lemma keysOf_insertAll_nil (ps : JsObj) :
    keysOf (insertAll [] ps) = firstDedup (ps.map Prod.fst) := by
  induction ps using List.reverseRecOn with
  | nil => rfl
  | append_singleton ps p ih =>
    rw [insertAll_append]
    have h1 : insertAll (insertAll [] ps) [p] =
        objInsert (insertAll [] ps) p.1 p.2 := rfl
    rw [h1, keysOf_objInsert, ih, List.map_append, List.map_singleton,
      firstDedup_append_singleton]
    by_cases hp : p.1 ∈ ps.map Prod.fst
    · rw [if_pos ((mem_firstDedup _ _).mpr hp), if_pos hp]
    · rw [if_neg (fun hc => hp ((mem_firstDedup _ _).mp hc)), if_neg hp]

lemma keysOf_buildObj (hs vs : List (List Char)) (h : hs.length ≤ vs.length) :
    keysOf (buildObj hs vs) = firstDedup hs := by
  rw [buildObj, keysOf_insertAll_nil, List.map_map]
  have : (Prod.fst ∘ fun p : List Char × List Char =>
      (p.1, coerceCell p.2)) = Prod.fst := rfl
  rw [this, List.map_fst_zip hs vs h]

lemma processRows_first_mismatch (hs : List (List Char))
    (pre : List (List Char)) (bad : List Char) (post : List (List Char))
    (hpre : ∀ r ∈ pre, (splitCh ',' r).length = hs.length)
    (hbad : (splitCh ',' bad).length ≠ hs.length) :
    ∀ i, processRows hs (pre ++ bad :: post) i =
      .error (.columnMismatch (i + pre.length + 1)
        (splitCh ',' bad).length hs.length) := by
  induction pre with
  | nil =>
    intro i
    simp only [List.nil_append, processRows, List.length_map, ne_eq, hbad,
      not_false_eq_true, if_true, List.length_nil, Nat.add_zero]
  | cons r rest ih =>
    intro i
    have hr : (splitCh ',' r).length = hs.length := hpre r (by simp)
    have hrest := fun x hx => hpre x (List.mem_cons_of_mem r hx)
    simp only [List.cons_append, processRows, List.length_map, hr, ne_eq,
      not_true_eq_false, if_false, List.length_cons, List.append_eq]
    rw [(by omega : i + (rest.length + 1) + 1 = i + 1 + rest.length + 1),
      ih hrest (i + 1)]

lemma lookupObj_objInsert (o : JsObj) (k' k : List Char) (v : JsVal) :
    lookupObj k (objInsert o k' v) =
      if k' = k then some v else lookupObj k o := by
  induction o with
  | nil =>
    by_cases h : k' = k <;> simp [objInsert, lookupObj, h]
  | cons p rest ih =>
    obtain ⟨pk, pv⟩ := p
    by_cases hpk : pk = k'
    · subst hpk
      rw [objInsert, if_pos rfl]
      by_cases hk : pk = k <;> simp [lookupObj, hk]
    · rw [objInsert, if_neg hpk]
      by_cases hk : pk = k
      · subst hk
        have hne : ¬ k' = pk := fun h => hpk h.symm
        simp [lookupObj, hne]
      · simp [lookupObj, hk, ih]

lemma lookupObj_insertAll (ps : JsObj) :
    ∀ (o : JsObj) (k : List Char),
      lookupObj k (insertAll o ps) = optOr (lastAssoc k ps) (lookupObj k o) := by
  induction ps with
  | nil => intro o k; rfl
  | cons p ps' ih =>
    intro o k
    have hstep : insertAll o (p :: ps') = insertAll (objInsert o p.1 p.2) ps' :=
      rfl
    rw [hstep, ih (objInsert o p.1 p.2) k, lookupObj_objInsert, lastAssoc]
    cases lastAssoc k ps' with
    | some w => rfl
    | none =>
      by_cases h : p.1 = k <;> simp [optOr, h]

lemma toCRLF_append (a b : List Char) :
    toCRLF (a ++ b) = toCRLF a ++ toCRLF b := by
  induction a with
  | nil => rfl
  | cons c r ih =>
    by_cases hc : c = '\n' <;> simp [toCRLF, hc, ih]

lemma toCRLF_eq_nil (s : List Char) : toCRLF s = [] ↔ s = [] := by
  cases s with
  | nil => simp [toCRLF]
  | cons c r =>
    constructor
    · intro h
      rw [toCRLF] at h
      split at h <;> cases h
    · intro h
      cases h

lemma dropWhile_ws_toCRLF (s : List Char) :
    (toCRLF s).dropWhile jsIsWs = toCRLF (s.dropWhile jsIsWs) := by
  induction s with
  | nil => rfl
  | cons c r ih =>
    by_cases hc : c = '\n'
    · subst hc
      have h1 : jsIsWs '\r' = true := by decide
      have h2 : jsIsWs '\n' = true := by decide
      simp [toCRLF, List.dropWhile_cons, h1, h2, ih]
    · cases hw : jsIsWs c with
      | true => simp [toCRLF, hc, List.dropWhile_cons, hw, ih]
      | false => simp [toCRLF, hc, List.dropWhile_cons, hw]

lemma trimRight_append_ws (x : List Char) (c : Char) (h : jsIsWs c = true) :
    trimRight (x ++ [c]) = trimRight x := by
  simp [trimRight, List.reverse_append, List.dropWhile_cons, h]

lemma trimRight_append_not_ws (x : List Char) (c : Char)
    (h : jsIsWs c = false) : trimRight (x ++ [c]) = x ++ [c] := by
  simp [trimRight, List.reverse_append, List.dropWhile_cons, h]

lemma trimRight_toCRLF (s : List Char) :
    trimRight (toCRLF s) = toCRLF (trimRight s) := by
  induction s using List.reverseRecOn with
  | nil => rfl
  | append_singleton l c ih =>
    rw [toCRLF_append]
    cases hw : jsIsWs c with
    | true =>
      rw [trimRight_append_ws l c hw]
      by_cases hc : c = '\n'
      · subst hc
        have h2 : toCRLF l ++ toCRLF ['\n'] = (toCRLF l ++ ['\r']) ++ ['\n'] := by
          simp [toCRLF]
        rw [h2, trimRight_append_ws _ '\n' (by decide),
          trimRight_append_ws _ '\r' (by decide), ih]
      · rw [show toCRLF [c] = [c] from by simp [toCRLF, hc],
          trimRight_append_ws _ c hw, ih]
    | false =>
      have hc : ¬ c = '\n' := by
        intro hq
        rw [hq] at hw
        cases hw
      rw [show toCRLF [c] = [c] from by simp [toCRLF, hc],
        trimRight_append_not_ws _ c hw, trimRight_append_not_ws _ c hw,
        toCRLF_append, show toCRLF [c] = [c] from by simp [toCRLF, hc]]

lemma trimL_toCRLF (s : List Char) : trimL (toCRLF s) = toCRLF (trimL s) := by
  rw [trimL, trimL, dropWhile_ws_toCRLF, trimRight_toCRLF]

lemma trimL_append_ws (x : List Char) (c : Char) (h : jsIsWs c = true) :
    trimL (x ++ [c]) = trimL x := by
  rw [trimL, trimL, List.dropWhile_append]
  by_cases he : (x.dropWhile jsIsWs).isEmpty
  · rw [if_pos he]
    have hx : x.dropWhile jsIsWs = [] := by
      cases hq : x.dropWhile jsIsWs
      · rfl
      · rw [hq] at he
        cases he
    simp [List.dropWhile_cons, h, hx, trimRight]
  · rw [if_neg he, trimRight_append_ws _ c h]

lemma splitCh_append_not_sep (sep c : Char) (h : c ≠ sep) (l : List Char) :
    splitCh sep (l ++ [c]) = appLast c (splitCh sep l) := by
  induction l with
  | nil => simp [splitCh, appLast, h]
  | cons a l ih =>
    rw [List.cons_append, splitCh, ih, splitCh]
    rcases hsp : splitCh sep l with _ | ⟨h0, t0⟩
    · exact absurd hsp (splitCh_ne_nil sep l)
    · cases t0 with
      | nil =>
        by_cases ha : a = sep <;> simp [appLast, ha]
      | cons y t1 =>
        by_cases ha : a = sep <;> simp [appLast, ha]

lemma map_trimL_appLast (ls : List (List Char)) :
    (appLast '\r' ls).map trimL = ls.map trimL := by
  induction ls with
  | nil => rfl
  | cons x t ih =>
    cases t with
    | nil => simp [appLast, trimL_append_ws x '\r' (by decide)]
    | cons y t1 =>
      rw [appLast, List.map_cons, ih, List.map_cons]
      rfl

lemma addCR_length (ls : List (List Char)) : (addCR ls).length = ls.length := by
  induction ls with
  | nil => rfl
  | cons x t ih =>
    cases t with
    | nil => rfl
    | cons y t1 =>
      rw [addCR, List.length_cons, ih, List.length_cons]
      rfl

lemma splitCh_toCRLF (t : List Char) (hr : '\r' ∉ t) :
    splitCh '\n' (toCRLF t) = addCR (splitCh '\n' t) := by
  induction t with
  | nil => rfl
  | cons c r ih =>
    have hcr : ¬ ('\r' = c ∨ '\r' ∈ r) := by
      intro hq
      exact hr (List.mem_cons.mpr hq)
    have hc : c ≠ '\r' := fun hq => hcr (Or.inl hq.symm)
    have hrr : '\r' ∉ r := fun hq => hcr (Or.inr hq)
    rcases hsp : splitCh '\n' r with _ | ⟨h0, t0⟩
    · exact absurd hsp (splitCh_ne_nil '\n' r)
    · by_cases hcn : c = '\n'
      · subst hcn
        have hc2 : ¬ '\r' = '\n' := by decide
        simp only [toCRLF, splitCh, ih hrr, hsp, addCR, hc2, if_pos, if_true]
        cases t0 <;> simp [addCR, splitCh, hc2]
      · simp only [toCRLF, hcn, if_false, splitCh, ih hrr, hsp]
        cases t0 with
        | nil => simp [addCR, hcn]
        | cons y t1 => simp [addCR, hcn]

lemma processRows_cons (hs : List (List Char)) (line : List Char)
    (rest : List (List Char)) (i : Nat) :
    processRows hs (line :: rest) i =
      if ((splitCh ',' line).map trimL).length ≠ hs.length then
        .error (.columnMismatch (i + 1)
          ((splitCh ',' line).map trimL).length hs.length)
      else
        match processRows hs rest (i + 1) with
        | .error e => .error e
        | .ok objs => .ok (buildObj hs ((splitCh ',' line).map trimL) :: objs) :=
  rfl

lemma processRows_addCR (hs : List (List Char)) (rows : List (List Char)) :
    ∀ i, processRows hs (addCR rows) i = processRows hs rows i := by
  induction rows with
  | nil => intro i; rfl
  | cons r rest ih =>
    intro i
    cases rest with
    | nil => rfl
    | cons y t =>
      rw [addCR, processRows_cons, processRows_cons,
        splitCh_append_not_sep ',' '\r' (by decide), map_trimL_appLast,
        ih (i + 1)]

lemma mem_of_mem_trimL {a : Char} {s : List Char} (h : a ∈ trimL s) :
    a ∈ s := by
  rw [trimL, trimRight] at h
  rw [List.mem_reverse] at h
  have h2 := (List.dropWhile_sublist jsIsWs).subset h
  rw [List.mem_reverse] at h2
  exact (List.dropWhile_sublist jsIsWs).subset h2

lemma map_fst_filter_idx (o : JsObj) :
    (o.filter (fun p => isArrayIndex p.1)).map Prod.fst =
      (o.map Prod.fst).filter isArrayIndex := by
  induction o with
  | nil => rfl
  | cons p t ih =>
    cases hq : isArrayIndex p.1 <;> simp [List.filter_cons, hq, ih]

lemma map_fst_filter_not_idx (o : JsObj) :
    (o.filter (fun p => !isArrayIndex p.1)).map Prod.fst =
      (o.map Prod.fst).filter (fun k => !isArrayIndex k) := by
  induction o with
  | nil => rfl
  | cons p t ih =>
    cases hq : isArrayIndex p.1 <;> simp [List.filter_cons, hq, ih]

lemma map_fst_insertIdx (p : List Char × JsVal) (l : JsObj) :
    (insertIdx p l).map Prod.fst = insertKeyIdx p.1 (l.map Prod.fst) := by
  induction l with
  | nil => rfl
  | cons q t ih =>
    by_cases h : natOfDigits 10 p.1 < natOfDigits 10 q.1 <;>
      simp [insertIdx, insertKeyIdx, h, ih]

lemma map_fst_sortIdx (l : JsObj) :
    (sortIdx l).map Prod.fst = sortKeyIdx (l.map Prod.fst) := by
  induction l with
  | nil => rfl
  | cons p t ih =>
    show (insertIdx p (sortIdx t)).map Prod.fst =
      insertKeyIdx p.1 (sortKeyIdx (t.map Prod.fst))
    rw [map_fst_insertIdx, ih]

lemma jsKeys_eq_orderKeys (o : JsObj) : jsKeys o = jsOrderKeys (keysOf o) := by
  rw [jsKeys, jsOwnKeysOrder, List.map_append, map_fst_sortIdx,
    map_fst_filter_idx, map_fst_filter_not_idx, jsOrderKeys, keysOf]

lemma mem_insertIdx (a p : List Char × JsVal) (l : JsObj) :
    a ∈ insertIdx p l ↔ a = p ∨ a ∈ l := by
  induction l with
  | nil => simp [insertIdx]
  | cons q t ih =>
    by_cases h : natOfDigits 10 p.1 < natOfDigits 10 q.1
    · simp [insertIdx, h]
    · simp [insertIdx, h, ih]
      tauto

lemma mem_sortIdx (a : List Char × JsVal) (l : JsObj) :
    a ∈ sortIdx l ↔ a ∈ l := by
  induction l with
  | nil => simp [sortIdx]
  | cons p t ih =>
    show a ∈ insertIdx p (sortIdx t) ↔ _
    rw [mem_insertIdx]
    simp [ih]

lemma mem_jsKeys (k : List Char) (o : JsObj) : k ∈ jsKeys o ↔ k ∈ keysOf o := by
  rw [jsKeys, keysOf]
  constructor
  · intro h
    rcases List.mem_map.mp h with ⟨p, hp, rfl⟩
    rw [jsOwnKeysOrder, List.mem_append] at hp
    have hpo : p ∈ o := by
      rcases hp with h1 | h2
      · exact (List.mem_filter.mp ((mem_sortIdx p _).mp h1)).1
      · exact (List.mem_filter.mp h2).1
    exact List.mem_map.mpr ⟨p, hpo, rfl⟩
  · intro h
    rcases List.mem_map.mp h with ⟨p, hp, rfl⟩
    refine List.mem_map.mpr ⟨p, ?_, rfl⟩
    rw [jsOwnKeysOrder, List.mem_append]
    cases hq : isArrayIndex p.1 with
    | true =>
      exact Or.inl ((mem_sortIdx p _).mpr (List.mem_filter.mpr ⟨hp, hq⟩))
    | false => exact Or.inr (List.mem_filter.mpr ⟨hp, by simp [hq]⟩)

lemma jsOrderKeys_eq_self (ks : List (List Char))
    (h : ∀ k ∈ ks, isArrayIndex k = false) : jsOrderKeys ks = ks := by
  have h1 : ks.filter isArrayIndex = [] :=
    List.filter_eq_nil_iff.mpr (fun a ha => by simp [h a ha])
  have h2 : ks.filter (fun k => !isArrayIndex k) = ks :=
    List.filter_eq_self.mpr (fun a ha => by simp [h a ha])
  rw [jsOrderKeys, h1, h2]
  rfl

lemma buildObj_ne_nil (hs vs : List (List Char)) (hhs : hs ≠ [])
    (hvs : vs ≠ []) : buildObj hs vs ≠ [] := by
  intro h
  have hk := keysOf_insertAll_nil
    ((hs.zip vs).map (fun p => (p.1, coerceCell p.2)))
  rw [show insertAll []
      ((hs.zip vs).map (fun p => (p.1, coerceCell p.2))) = buildObj hs vs
    from rfl, h] at hk
  cases hs with
  | nil => exact hhs rfl
  | cons a hs2 =>
    cases vs with
    | nil => exact hvs rfl
    | cons b vs2 => simp [keysOf, firstDedup] at hk

lemma renderTop_ne_nil_eq (objs : List JsObj) (h : objs ≠ []) :
    renderTop objs =
      "[\n".data ++
        joinSep ",\n".data (objs.map (fun o => "  ".data ++ renderObj o)) ++
        "\n]".data := by
  cases objs with
  | nil => exact absurd rfl h
  | cons o t => rfl

lemma two_space_renderObj (o : JsObj) (h : o ≠ []) :
    "  ".data ++ renderObj o =
      "  \x7b\n".data ++
        joinSep ",\n".data ((jsOwnKeysOrder o).map (fun kv =>
          "    ".data ++ renderStr kv.1 ++ ": ".data ++ renderVal kv.2)) ++
        "\n  \x7d".data := by
  cases o with
  | nil => exact absurd rfl h
  | cons p t => simp [renderObj, List.append_assoc]

lemma csvToJsonL_valid_ok (csv : List Char)
    (hne : trimL csv ≠ [])
    (hlen : 2 ≤ (splitCh '\n' (trimL csv)).length)
    (hrows : ∀ row ∈ (splitCh '\n' (trimL csv)).tail,
      (splitCh ',' row).length =
        (splitCh ',' ((splitCh '\n' (trimL csv)).headD [])).length) :
    csvToJsonL csv = .ok (renderTop ((splitCh '\n' (trimL csv)).tail.map
      (fun r => buildObj
        ((splitCh ',' ((splitCh '\n' (trimL csv)).headD [])).map trimL)
        ((splitCh ',' r).map trimL)))) := by
  have hlens : ∀ row ∈ (splitCh '\n' (trimL csv)).tail,
      (splitCh ',' row).length =
        ((splitCh ',' ((splitCh '\n' (trimL csv)).headD [])).map
          trimL).length := by
    intro row hr
    rw [List.length_map]
    exact hrows row hr
  rw [csvToJsonL, if_neg hne, if_neg (by omega),
    processRows_ok_of_matches _ _ hlens 1]
  rfl

lemma keysOf_of_valid (csv : List Char)
    (hrows : ∀ row ∈ (splitCh '\n' (trimL csv)).tail,
      (splitCh ',' row).length =
        (splitCh ',' ((splitCh '\n' (trimL csv)).headD [])).length) :
    ∀ o ∈ (splitCh '\n' (trimL csv)).tail.map
      (fun r => buildObj
        ((splitCh ',' ((splitCh '\n' (trimL csv)).headD [])).map trimL)
        ((splitCh ',' r).map trimL)),
      keysOf o = firstDedup
        ((splitCh ',' ((splitCh '\n' (trimL csv)).headD [])).map trimL) := by
  intro o ho
  rcases List.mem_map.mp ho with ⟨r, hr, rfl⟩
  exact keysOf_buildObj _ _ (by simp [List.length_map, hrows r hr])

/-- C2: the coercion implemented by the code agrees with the precedence
stated by the spec on every cell: number first (empty excluded), then
boolean, then null/empty, then the original trimmed string. -/
theorem coerceCell_eq_specCoerce (cell : List Char) :
    coerceCell cell = specCoerce cell := by
  unfold coerceCell specCoerce
  by_cases hn : jsIsNaN (jsNumber cell) = false <;>
    by_cases he : cell = [] <;>
      by_cases ht : lowerL cell = "true".data <;>
        by_cases hf : lowerL cell = "false".data <;>
          simp_all

/-- C5: a cell whose trimmed text is empty is coerced to null (never to
the number zero, although `Number("") = 0`, because the numeric branch
explicitly excludes the empty string), and the cells `"null"` and
`"NULL"` are also coerced to null. -/
theorem empty_and_null_cells_coerce_to_null (raw : List Char)
    (h : trimL raw = []) :
    coerceCell (trimL raw) = .vnull ∧
      coerceCell "null".data = .vnull ∧ coerceCell "NULL".data = .vnull := by
  refine ⟨?_, by decide, by decide⟩
  rw [h]; decide

/-- Witness for C5 at the whitespace-only cell `"  "`. -/
theorem empty_and_null_cells_coerce_to_null_witness :
    trimL "  ".data = [] ∧ coerceCell (trimL "  ".data) = .vnull :=
  ⟨by decide, (empty_and_null_cells_coerce_to_null "  ".data (by decide)).1⟩

/-- C9: a cell `"Infinity"` (resp. `"-Infinity"`) passes the numeric
check and is stored as a non-finite number, which `JSON.stringify`
renders as `null`; a cell `"NaN"` fails the `!isNaN(Number(value))`
check and stays the string `"NaN"`.  The last conjunct shows the
end-to-end output. -/
theorem infinity_cells_serialize_to_null :
    coerceCell "Infinity".data = .vnum .posInf ∧
    coerceCell "-Infinity".data = .vnum .negInf ∧
    renderVal (.vnum .posInf) = "null".data ∧
    renderVal (.vnum .negInf) = "null".data ∧
    coerceCell "NaN".data = .vstr "NaN".data ∧
    csvToJson "a,b\nInfinity,NaN" =
      .ok "[\n  \x7b\n    \"a\": null,\n    \"b\": \"NaN\"\n  \x7d\n]" :=
  ⟨by decide, by decide, by decide, by decide, by decide, by rfl⟩

/-- C6 (amended): on every successful conversion the output is the
two-space pretty-printed JSON array — `[\n`, records joined by `,\n`,
each record `  \x7b\n`, one four-space-indented `"key": value` line per
property joined by `,\n`, closing `\n  \x7d`, final `\n]` — with values
encoded by standard JSON serialization (numbers unquoted, booleans as
`true`/`false`, null as `null`, strings quoted and escaped), and each
record's key order following the header's column order except that
array-index-like names enumerate first in ascending numeric order
(JavaScript own-property order; the original "key order follows the
header's column order" fails for integer-like header names, see
`numeric_headers_not_column_order`).  The final conjunct pins the exact
bytes on an input exercising every value kind. -/
theorem output_is_pretty_printed_json (csv : List Char)
    (hne : trimL csv ≠ [])
    (hlen : 2 ≤ (splitCh '\n' (trimL csv)).length)
    (hrows : ∀ row ∈ (splitCh '\n' (trimL csv)).tail,
      (splitCh ',' row).length =
        (splitCh ',' ((splitCh '\n' (trimL csv)).headD [])).length) :
    ∃ objs,
      objs ≠ [] ∧
      csvToJsonL csv = .ok
        ("[\n".data ++
          joinSep ",\n".data (objs.map (fun o =>
            "  \x7b\n".data ++
              joinSep ",\n".data ((jsOwnKeysOrder o).map (fun kv =>
                "    ".data ++ renderStr kv.1 ++ ": ".data ++
                  renderVal kv.2)) ++
              "\n  \x7d".data)) ++
          "\n]".data) ∧
      (∀ o ∈ objs, jsKeys o =
        jsOrderKeys (firstDedup
          ((splitCh ',' ((splitCh '\n' (trimL csv)).headD [])).map trimL))) ∧
      csvToJson "a,b,c,d\n3.14,true,null,he\"y\n42,FALSE,NULL, x " =
        .ok ("[\n  \x7b\n    \"a\": 3.14,\n    \"b\": true,\n    \"c\": null,\n"
          ++ "    \"d\": \"he\\\"y\"\n  \x7d,\n  \x7b\n    \"a\": 42,\n"
          ++ "    \"b\": false,\n    \"c\": null,\n    \"d\": \"x\"\n  \x7d\n]")
      := by
  have hkeys := keysOf_of_valid csv hrows
  have hone : ∀ o ∈ (splitCh '\n' (trimL csv)).tail.map
      (fun r => buildObj
        ((splitCh ',' ((splitCh '\n' (trimL csv)).headD [])).map trimL)
        ((splitCh ',' r).map trimL)), o ≠ [] := by
    intro o ho
    rcases List.mem_map.mp ho with ⟨r, hr, rfl⟩
    refine buildObj_ne_nil _ _ ?_ ?_ <;>
      simp [List.map_eq_nil_iff, splitCh_ne_nil]
  have hobjs : (splitCh '\n' (trimL csv)).tail.map
      (fun r => buildObj
        ((splitCh ',' ((splitCh '\n' (trimL csv)).headD [])).map trimL)
        ((splitCh ',' r).map trimL)) ≠ [] := by
    apply List.ne_nil_of_length_pos
    rw [List.length_map, List.length_tail]
    omega
  refine ⟨(splitCh '\n' (trimL csv)).tail.map
      (fun r => buildObj
        ((splitCh ',' ((splitCh '\n' (trimL csv)).headD [])).map trimL)
        ((splitCh ',' r).map trimL)), hobjs, ?_, ?_, by rfl⟩
  · rw [csvToJsonL_valid_ok csv hne hlen hrows,
      renderTop_ne_nil_eq _ hobjs,
      List.map_congr_left (fun o ho => two_space_renderObj o (hone o ho))]
  · intro o ho
    rw [jsKeys_eq_orderKeys, hkeys o ho]

/-- Witness for C6 at the input `a,b\n1,x`. -/
theorem output_is_pretty_printed_json_witness :
    ∃ objs,
      objs ≠ [] ∧
      csvToJsonL "a,b\n1,x".data = .ok
        ("[\n".data ++
          joinSep ",\n".data (objs.map (fun o =>
            "  \x7b\n".data ++
              joinSep ",\n".data ((jsOwnKeysOrder o).map (fun kv =>
                "    ".data ++ renderStr kv.1 ++ ": ".data ++
                  renderVal kv.2)) ++
              "\n  \x7d".data)) ++
          "\n]".data) ∧
      (∀ o ∈ objs, jsKeys o =
        jsOrderKeys (firstDedup
          ((splitCh ','
            ((splitCh '\n' (trimL "a,b\n1,x".data)).headD [])).map trimL))) ∧
      csvToJson "a,b,c,d\n3.14,true,null,he\"y\n42,FALSE,NULL, x " =
        .ok ("[\n  \x7b\n    \"a\": 3.14,\n    \"b\": true,\n    \"c\": null,\n"
          ++ "    \"d\": \"he\\\"y\"\n  \x7d,\n  \x7b\n    \"a\": 42,\n"
          ++ "    \"b\": false,\n    \"c\": null,\n    \"d\": \"x\"\n  \x7d\n]")
      :=
  output_is_pretty_printed_json "a,b\n1,x".data (by decide) (by decide)
    (by decide)

/-- Counterexample to C6's key-order assertion as stated: for header
`10,9` the program enumerates the integer-like keys in ascending numeric
order (`"9"` before `"10"` — numeric, not even lexicographic), so the
output's key order does not follow the header's column order. -/
theorem numeric_headers_not_column_order :
    csvToJson "10,9\nx,y" =
      .ok "[\n  \x7b\n    \"9\": \"y\",\n    \"10\": \"x\"\n  \x7d\n]" ∧
    (splitCh ',' ((splitCh '\n' (trimL "10,9\nx,y".data)).headD [])).map
        trimL = ["10".data, "9".data] ∧
    jsKeys (buildObj ["10".data, "9".data] ["x".data, "y".data]) ≠
      ["10".data, "9".data] :=
  ⟨by rfl, by decide, by decide⟩

/-- C8: the converter is deterministic and side-effect-free.  The
embedding captures the source statement-by-statement as a pure function
of the input string, so two invocations on identical input are equal
results (byte-identical output, or a failure carrying the identical
message). -/
theorem csvToJson_deterministic (s t : String) (h : s = t) :
    csvToJson s = csvToJson t := by rw [h]

/-- Witness for C8 at a concrete input. -/
theorem csvToJson_deterministic_witness :
    csvToJson "a,b\n1,2" = csvToJson "a,b\n1,2" :=
  csvToJson_deterministic "a,b\n1,2" "a,b\n1,2" rfl

/-- C1 (amended): for every input whose trimmed text has a header line
and at least one data line, all data lines comma-splitting to the
header's field count, conversion succeeds with the serialization of one
record per data row (none dropped); each record's key sequence is the
first-occurrence deduplication of the trimmed header names reordered by
JavaScript's own-property-key rule (array-index-like names first in
ascending numeric order, the rest in header order) — which is exactly
the trimmed header-name sequence whenever the names are distinct and
none is array-index-like.  The original claim's "keys equal the trimmed
header names" fails for integer-like header names (see
`convert_keys_header_order_counterexample`). -/
theorem convert_succeeds_on_valid_csv (csv : List Char)
    (hne : trimL csv ≠ [])
    (hlen : 2 ≤ (splitCh '\n' (trimL csv)).length)
    (hrows : ∀ row ∈ (splitCh '\n' (trimL csv)).tail,
      (splitCh ',' row).length =
        (splitCh ',' ((splitCh '\n' (trimL csv)).headD [])).length) :
    ∃ objs,
      csvToJsonL csv = .ok (renderTop objs) ∧
      objs.length = (splitCh '\n' (trimL csv)).tail.length ∧
      1 ≤ objs.length ∧
      (∀ o ∈ objs, jsKeys o =
        jsOrderKeys (firstDedup
          ((splitCh ',' ((splitCh '\n' (trimL csv)).headD [])).map trimL))) ∧
      ((∀ k ∈ firstDedup
          ((splitCh ',' ((splitCh '\n' (trimL csv)).headD [])).map trimL),
          isArrayIndex k = false) →
        ((splitCh ',' ((splitCh '\n' (trimL csv)).headD [])).map trimL).Nodup →
        ∀ o ∈ objs, jsKeys o =
          (splitCh ',' ((splitCh '\n' (trimL csv)).headD [])).map trimL) := by
  have hkeys := keysOf_of_valid csv hrows
  refine ⟨(splitCh '\n' (trimL csv)).tail.map
      (fun r => buildObj
        ((splitCh ',' ((splitCh '\n' (trimL csv)).headD [])).map trimL)
        ((splitCh ',' r).map trimL)),
    csvToJsonL_valid_ok csv hne hlen hrows, ?_, ?_, ?_, ?_⟩
  · rw [List.length_map]
  · rw [List.length_map, List.length_tail]
    omega
  · intro o ho
    rw [jsKeys_eq_orderKeys, hkeys o ho]
  · intro hidx hnd o ho
    rw [jsKeys_eq_orderKeys, hkeys o ho, jsOrderKeys_eq_self _ hidx,
      firstDedup_eq_self _ hnd]

/-- Witness for C1 at the two-row input `a,b\n1,2\n3,4`. -/
theorem convert_succeeds_on_valid_csv_witness :
    ∃ objs,
      csvToJsonL "a,b\n1,2\n3,4".data = .ok (renderTop objs) ∧
      objs.length = (splitCh '\n' (trimL "a,b\n1,2\n3,4".data)).tail.length ∧
      1 ≤ objs.length ∧
      (∀ o ∈ objs, jsKeys o =
        jsOrderKeys (firstDedup ((splitCh ','
          ((splitCh '\n' (trimL "a,b\n1,2\n3,4".data)).headD [])).map
            trimL))) ∧
      ((∀ k ∈ firstDedup ((splitCh ','
          ((splitCh '\n' (trimL "a,b\n1,2\n3,4".data)).headD [])).map trimL),
          isArrayIndex k = false) →
        ((splitCh ','
          ((splitCh '\n' (trimL "a,b\n1,2\n3,4".data)).headD [])).map
            trimL).Nodup →
        ∀ o ∈ objs, jsKeys o =
          (splitCh ','
            ((splitCh '\n' (trimL "a,b\n1,2\n3,4".data)).headD [])).map
              trimL) :=
  convert_succeeds_on_valid_csv "a,b\n1,2\n3,4".data (by decide) (by decide)
    (by decide)

/-- Counterexample to C1 as stated: for header `2,1` (trimmed header
names `["2", "1"]`) the program's `JSON.stringify` enumerates the
integer-like keys in ascending numeric order, so the output object's
keys are `"1"` then `"2"`, not the header-column order — the record's
key sequence differs from the trimmed header names. -/
theorem convert_keys_header_order_counterexample :
    csvToJson "2,1\nx,y" =
      .ok "[\n  \x7b\n    \"1\": \"y\",\n    \"2\": \"x\"\n  \x7d\n]" ∧
    (splitCh ',' ((splitCh '\n' (trimL "2,1\nx,y".data)).headD [])).map trimL =
      ["2".data, "1".data] ∧
    jsKeys (buildObj ["2".data, "1".data] ["x".data, "y".data]) ≠
      ["2".data, "1".data] :=
  ⟨by rfl, by decide, by decide⟩

/-- C4: a data row whose comma-split field count differs from the
header's, all earlier data rows matching, aborts the whole conversion
with a `ColumnMismatch` error reporting the row's 1-based line number
(header = row 1, so the first data row is row 2), the observed count and
the expected count; no output is produced. -/
theorem mismatched_row_aborts_with_position (csv header : List Char)
    (pre : List (List Char)) (bad : List Char) (post : List (List Char))
    (hsplit : splitCh '\n' (trimL csv) = header :: (pre ++ bad :: post))
    (hpre : ∀ r ∈ pre, (splitCh ',' r).length = (splitCh ',' header).length)
    (hbad : (splitCh ',' bad).length ≠ (splitCh ',' header).length) :
    csvToJsonL csv = .error (.columnMismatch (pre.length + 2)
      (splitCh ',' bad).length (splitCh ',' header).length) := by
  have hne : trimL csv ≠ [] := by
    intro h0
    have hlen := congrArg List.length hsplit
    rw [h0] at hlen
    simp [splitCh, List.length_append] at hlen
  have hlt : ¬ (splitCh '\n' (trimL csv)).length < 2 := by
    rw [hsplit]
    simp [List.length_append]
    omega
  have hpre' : ∀ r ∈ pre, (splitCh ',' r).length =
      ((splitCh ',' header).map trimL).length := by
    intro r hr
    rw [List.length_map]
    exact hpre r hr
  rw [csvToJsonL, if_neg hne, if_neg hlt, hsplit, List.headD_cons,
    List.tail_cons,
    processRows_first_mismatch _ pre bad post hpre'
      (by rw [List.length_map]; exact hbad) 1]
  simp only [Except.map, List.length_map]
  rw [(by omega : 1 + pre.length + 1 = pre.length + 2)]

/-- Witness for C4 at the spec's own example: header `a,b`, single data
row `1,2,3` yields `ColumnMismatch` with row 2, observed 3, expected
2. -/
theorem mismatched_row_aborts_with_position_witness :
    csvToJsonL "a,b\n1,2,3".data = .error (.columnMismatch 2 3 2) :=
  mismatched_row_aborts_with_position "a,b\n1,2,3".data "a,b".data []
    "1,2,3".data [] (by decide) (by decide) (by decide)

/-- C3: the converter fails exactly when one of the three checks fires,
in order — trimmed input empty (`EmptyInput`), fewer than two newline
chunks (`InsufficientRows`), or some data line's comma-split count
differing from the header's (`ColumnMismatch`) — and on every other
input it returns a JSON string. -/
theorem convert_error_trichotomy (csv : List Char) :
    (csvToJsonL csv = .error .emptyInput ↔ trimL csv = []) ∧
    (csvToJsonL csv = .error .insufficientRows ↔
      trimL csv ≠ [] ∧ (splitCh '\n' (trimL csv)).length < 2) ∧
    ((∃ r o e, csvToJsonL csv = .error (.columnMismatch r o e)) ↔
      trimL csv ≠ [] ∧ 2 ≤ (splitCh '\n' (trimL csv)).length ∧
        ∃ row ∈ (splitCh '\n' (trimL csv)).tail,
          (splitCh ',' row).length ≠
            (splitCh ',' ((splitCh '\n' (trimL csv)).headD [])).length) ∧
    ((∃ out, csvToJsonL csv = .ok out) ↔
      trimL csv ≠ [] ∧ 2 ≤ (splitCh '\n' (trimL csv)).length ∧
        ∀ row ∈ (splitCh '\n' (trimL csv)).tail,
          (splitCh ',' row).length =
            (splitCh ',' ((splitCh '\n' (trimL csv)).headD [])).length) := by
  by_cases h1 : trimL csv = []
  · rw [csvToJsonL, if_pos h1]
    simp [h1]
  · by_cases h2 : (splitCh '\n' (trimL csv)).length < 2
    · rw [csvToJsonL, if_neg h1, if_pos h2]
      simp [h1, h2, Nat.not_le.mpr h2]
    · have h2' : 2 ≤ (splitCh '\n' (trimL csv)).length := Nat.not_lt.mp h2
      rw [csvToJsonL, if_neg h1, if_neg h2]
      by_cases h3 : ∀ row ∈ (splitCh '\n' (trimL csv)).tail,
          (splitCh ',' row).length =
            (splitCh ',' ((splitCh '\n' (trimL csv)).headD [])).length
      · have h3' : ∀ row ∈ (splitCh '\n' (trimL csv)).tail,
            (splitCh ',' row).length =
              ((splitCh ','
                ((splitCh '\n' (trimL csv)).headD [])).map trimL).length := by
          intro row hr
          rw [List.length_map]
          exact h3 row hr
        have hno : ¬ ∃ row ∈ (splitCh '\n' (trimL csv)).tail,
            (splitCh ',' row).length ≠
              (splitCh ',' ((splitCh '\n' (trimL csv)).headD [])).length := by
          push_neg
          exact h3
        rw [processRows_ok_of_matches _ _ h3' 1]
        simp only [Except.map]
        simp [h1, h2', hno]
        simpa using h3
      · have h3e : ∃ row ∈ (splitCh '\n' (trimL csv)).tail,
            (splitCh ',' row).length ≠
              (splitCh ',' ((splitCh '\n' (trimL csv)).headD [])).length := by
          push_neg at h3
          exact h3
        have h3m : ∃ row ∈ (splitCh '\n' (trimL csv)).tail,
            (splitCh ',' row).length ≠
              ((splitCh ','
                ((splitCh '\n' (trimL csv)).headD [])).map trimL).length := by
          rcases h3e with ⟨row, hr, hne⟩
          exact ⟨row, hr, by rw [List.length_map]; exact hne⟩
        rcases processRows_err_of_mismatch _ _ h3m 1 with ⟨ro, ob, herr⟩
        rw [herr]
        simp only [Except.map]
        simp [h1, h2', h3]
        simpa using h3e

/-- C7: duplicate header names — a record built from headers and values
answers every key with the value of the last (rightmost) column bearing
that name (`lastAssoc` scans the zipped columns right-biased), and its
serialized field names are exactly the header names (each name of the
zipped header sequence appears, duplicates collapsed since mapping keys
are unique).  End to end, header `a,b,a` with row `1,2,3` produces
`"a": 3` (the value of the rightmost `a` column), and header `b,2,b`
with row `1,2,3` produces `"2": 2, "b": 3` — last write still wins while
the integer-like key enumerates first. -/
theorem duplicate_headers_last_write_wins (hs vs : List (List Char))
    (k : List Char) :
    lookupObj k (buildObj hs vs) =
      lastAssoc k ((hs.zip vs).map (fun p => (p.1, coerceCell p.2))) ∧
    (∀ k2, k2 ∈ jsKeys (buildObj hs vs) ↔ k2 ∈ (hs.zip vs).map Prod.fst) ∧
    csvToJson "a,b,a\n1,2,3" =
      .ok "[\n  \x7b\n    \"a\": 3,\n    \"b\": 2\n  \x7d\n]" ∧
    csvToJson "b,2,b\n1,2,3" =
      .ok "[\n  \x7b\n    \"2\": 2,\n    \"b\": 3\n  \x7d\n]" := by
  refine ⟨?_, ?_, by rfl, by rfl⟩
  · rw [buildObj, lookupObj_insertAll]
    cases lastAssoc k ((hs.zip vs).map (fun p => (p.1, coerceCell p.2))) <;> rfl
  · have h1 : keysOf (buildObj hs vs) = firstDedup ((hs.zip vs).map Prod.fst) := by
      rw [buildObj, keysOf_insertAll_nil, List.map_map]
      rfl
    intro k2
    rw [mem_jsKeys, h1, mem_firstDedup]

/-- C10: converting an input with CRLF line endings gives exactly the
same result as the LF version — lines are split only on `'\n'`, and the
leftover `'\r'` at the end of each non-final line is removed by the
per-cell trimming, never changing field counts or values. -/
theorem crlf_equals_lf (s : List Char) (h : '\r' ∉ s) :
    csvToJsonL (toCRLF s) = csvToJsonL s := by
  have htrim : trimL (toCRLF s) = toCRLF (trimL s) := trimL_toCRLF s
  have hrt : '\r' ∉ trimL s := fun hc => h (mem_of_mem_trimL hc)
  by_cases h0 : trimL s = []
  · simp [csvToJsonL, htrim, h0, toCRLF]
  · have h0' : toCRLF (trimL s) ≠ [] := fun hh => h0 ((toCRLF_eq_nil _).mp hh)
    have hsp : splitCh '\n' (toCRLF (trimL s)) = addCR (splitCh '\n' (trimL s)) :=
      splitCh_toCRLF _ hrt
    rw [csvToJsonL, csvToJsonL, htrim, if_neg h0', if_neg h0, hsp, addCR_length]
    by_cases h2 : (splitCh '\n' (trimL s)).length < 2
    · rw [if_pos h2, if_pos h2]
    · rw [if_neg h2, if_neg h2]
      rcases hsl : splitCh '\n' (trimL s) with _ | ⟨hd, tl⟩
      · exact absurd hsl (splitCh_ne_nil _ _)
      · cases tl with
        | nil =>
          rw [hsl] at h2
          simp at h2
        | cons y t =>
          rw [addCR]
          simp only [List.headD_cons, List.tail_cons]
          rw [splitCh_append_not_sep ',' '\r' (by decide), map_trimL_appLast,
            processRows_addCR]

/-- Witness for C10: the CRLF form of `a,b\n1,2` converts to the same
result as the LF form. -/
theorem crlf_equals_lf_witness :
    csvToJsonL (toCRLF "a,b\n1,2".data) = csvToJsonL "a,b\n1,2".data :=
  crlf_equals_lf "a,b\n1,2".data (by decide)

example : jsNumber "42".data = .fin 42 0 := by decide

example : jsNumber "3.14".data = .fin 314 2 := by decide

example : jsNumber "".data = .fin 0 0 := by decide

example : jsNumber "true".data = .nan := by decide

example : jsNumber "Infinity".data = .posInf := by decide

example : jsNumber "-Infinity".data = .negInf := by decide

example : jsNumber "NaN".data = .nan := by decide

example : jsNumber "007".data = .fin 7 0 := by decide

example : jsNumber "1e3".data = .fin 1000 0 := by decide

example : jsNumber "1e-3".data = .fin 1 3 := by decide

example : jsNumber ".5".data = .fin 5 1 := by decide

example : jsNumber "12.".data = .fin 12 0 := by decide

example : jsNumber ".".data = .nan := by decide

example : jsNumber "0x1A".data = .fin 26 0 := by decide

example : jsNumber "-0x1A".data = .nan := by decide

example : jsNumber "New York".data = .nan := by decide

example : jsNumber "-.5".data = .fin (-5) 1 := by decide

example : csvToJson "" = .error "CSV input is empty" := by rfl

example : csvToJson "   " = .error "CSV input is empty" := by rfl

example : csvToJson "a,b,c" =
    .error "CSV must have at least a header row and one data row" := by rfl

example : csvToJson "a,b\n1,2,3" =
    .error "Row 2 has 3 columns, but header has 2 columns" := by rfl

example : csvToJson "a,b\n1,x" =
    .ok "[\n  \x7b\n    \"a\": 1,\n    \"b\": \"x\"\n  \x7d\n]" := by rfl
